import Mathlib
/-!
Shallow embedding of the Ludo session server (src/server.js) and proofs
about its room lifecycle, turn state machine, move engine and broadcast
behaviour.  Every definition mirrors the corresponding JavaScript function;
player ids are modelled as natural numbers, the JavaScript value
undefined/NaN arising from a missing color is modelled with Option, and the
random die of the roll handler is passed in as an explicit parameter.
-/
namespace Ludo
/-- The four token colors of the board. -/
inductive Color where
  | red
  | green
  | yellow
  | blue
  deriving DecidableEq, Repr
/-- Safe squares on the main track (global board indices), from server.js. -/
def SAFE_INDICES : List Int := [0, 8, 13, 21, 26, 34, 39, 47]
/-- Starting offset for each color on the main track (COLOR_START). -/
def COLOR_START : Color → Int
  | .red => 0
  | .green => 13
  | .yellow => 26
  | .blue => 39
/-- Final-path offset per color used by computeGlobalIndex for pos 52..57. -/
def finalColorOffset : Color → Int
  | .red => 0
  | .green => 10
  | .yellow => 20
  | .blue => 30
/-- A player record: id, display name, color (Option models the JavaScript
value undefined that the join handler can store when every color is taken),
ready flag and the four token positions (-1 home, 0..51 main track relative
offset, 52..57 final lane, 57 finished). -/
structure Player where
  id : Nat
  name : String
  color : Option Color
  ready : Bool
  positions : List Int
  deriving DecidableEq, Repr
/-- A room record, mirroring createRoom: roster in join order, turn index,
outstanding roll (0 encodes none), six-streak counter, started flag. -/
structure Room where
  id : String
  players : List Player
  turnIndex : Nat
  currentRoll : Nat
  consecutiveSixes : Nat
  gameStarted : Bool
  deriving DecidableEq, Repr
/-- createRoom from server.js. -/
def createRoom (roomId : String) : Room :=
  { id := roomId
    players := []
    turnIndex := 0
    currentRoll := 0
    consecutiveSixes := 0
    gameStarted := false }
/-- computeGlobalIndex from server.js.  A missing color makes the
JavaScript arithmetic produce NaN; that is modelled as none, and none
compares unequal to everything (as NaN does). -/
def computeGlobalIndex (color : Option Color) (pos : Int) : Option Int :=
  if pos < 0 then some (-1)
  else if pos ≤ 51 then color.map (fun c => (COLOR_START c + pos) % 52)
  else color.map (fun c => 100 + finalColorOffset c + (pos - 52))
/-- Equality test of two global indices as JavaScript === computes it:
a NaN (none) operand is never equal to anything, itself included. -/
def optEq : Option Int → Option Int → Bool
  | some a, some b => a == b
  | _, _ => false
/-- SAFE_INDICES.includes(targetGlobal); including a NaN target is false. -/
def safeGlobal : Option Int → Bool
  | some g => SAFE_INDICES.contains g
  | none => false
/-- The per-token movability test of computeMovableTokens: home tokens need
a 6, main-track tokens may not overshoot the final lane by more than 6,
final-lane tokens may not pass 57. -/
def tokenMovable (pos : Int) (roll : Nat) : Bool :=
  if pos == -1 then roll == 6
  else
    let newPos := pos + (roll : Int)
    if pos < 52 then
      if newPos ≤ 51 then true else decide (newPos - 51 ≤ 6)
    else decide (newPos ≤ 57)
/-- computeMovableTokens from server.js: the indices i of the loop for
which the token at positions[i] may move with the given roll.  The room
argument is unused, as in the source. -/
def computeMovableTokens (_room : Room) (player : Player) (roll : Nat) : List Nat :=
  (List.range player.positions.length).filter fun i =>
    match player.positions[i]? with
    | some pos => tokenMovable pos roll
    | none => false
/-- Count of finished tokens used by nextTurn and the move handler. -/
def finishedTokens (p : Player) : Nat :=
  (p.positions.filter (fun pos => pos == 57)).length
/-- The while loop of nextTurn: starting from idx, walk cyclically for at
most fuel steps looking for a player with an unfinished token; if none is
found the original turn index (fb) is kept. -/
def nextTurnAux (ps : List Player) : Nat → Nat → Nat → Nat
  | _, 0, fb => fb
  | idx, fuel + 1, fb =>
    match ps[idx]? with
    | some p =>
        if finishedTokens p < 4 then idx
        else nextTurnAux ps ((idx + 1) % ps.length) fuel fb
    | none => fb
/-- nextTurn from server.js: advance the turn to the next active player,
skipping players whose four tokens have finished; if every player has
finished, keep the index. -/
def nextTurn (room : Room) : Room :=
  if room.players.length = 0 then room
  else
    { room with
      turnIndex :=
        nextTurnAux room.players ((room.turnIndex + 1) % room.players.length)
          room.players.length room.turnIndex }
/-- Destination computation of performMove: home tokens enter at 0, a
main-track token overshooting 51 is remapped into the final lane (the
remap 51 + (pos + roll - 51) of the source). -/
def moveDest (pos : Int) (roll : Nat) : Int :=
  if pos == -1 then 0
  else
    let np := pos + (roll : Int)
    if pos < 52 && decide (np > 51) then 51 + (np - 51) else np
/-- The capture condition of performMove for one opposing token: it must
stand on the main track, share the global cell of the destination, and the
destination cell must not be safe. -/
def tokenCapturedBy (targetGlobal : Option Int) (oppColor : Option Color) (oppPos : Int) : Bool :=
  decide (0 ≤ oppPos) && decide (oppPos ≤ 51) &&
    optEq (computeGlobalIndex oppColor oppPos) targetGlobal && !(safeGlobal targetGlobal)
/-- The capture loop of performMove: send every matching opposing token
home and report whether any token was captured. -/
def captureSweep (players : List Player) (moverId : Nat) (targetGlobal : Option Int) :
    List Player × Bool :=
  (players.map fun opp =>
      if opp.id != moverId then
        { opp with
          positions := opp.positions.map fun oppPos =>
            if tokenCapturedBy targetGlobal opp.color oppPos then -1 else oppPos }
      else opp,
   players.any fun opp =>
      opp.id != moverId && opp.positions.any (tokenCapturedBy targetGlobal opp.color))
/-- performMove from server.js, acting on the player at moverIdx.  Returns
the updated room, the captured flag and the finishedNow flag.  The handler
only calls it with a token index validated by computeMovableTokens, so the
out-of-range lookups (which would produce NaN positions in JavaScript) are
modelled as a no-op. -/
def performMove (room : Room) (moverIdx tokenIndex : Nat) (roll : Nat) :
    Room × Bool × Bool :=
  match room.players[moverIdx]? with
  | none => (room, false, false)
  | some player =>
    match player.positions[tokenIndex]? with
    | none => (room, false, false)
    | some pos =>
      let newPos := moveDest pos roll
      let swept :=
        if newPos ≤ 51 then
          captureSweep room.players player.id (computeGlobalIndex player.color newPos)
        else (room.players, false)
      let players2 :=
        swept.1.set moverIdx { player with positions := player.positions.set tokenIndex newPos }
      ({ room with players := players2 }, swept.2, newPos == 57)
/-- Outbound protocol events (payloads kept as the source serializes them,
with rosters flattened to id, name, color, ready tuples). -/
inductive Event where
  | errorMsg (message : String)
  | joined (playerId : Nat) (color : Option Color)
      (players : List (Nat × String × Option Color × Bool))
  | playerList (players : List (Nat × String × Option Color × Bool))
  | gameStartedEv (turnPlayerId : Nat) (state : List (Nat × List Int))
  | rollResult (playerId : Nat) (roll : Nat) (moves : List Nat)
  | stateUpdate (playerId : Nat) (positions : List Int) (tokenIndex : Nat)
      (roll : Nat) (captured : Bool) (finished : Bool)
  | turn (playerId : Nat)
  | playerFinishedEv (playerId : Nat)
  deriving DecidableEq, Repr
/-- Whether a message is sent only to the requesting socket or broadcast
to the whole room. -/
inductive Out where
  | toSender (e : Event)
  | toAll (e : Event)
  deriving DecidableEq, Repr
/-- The roster snapshot the handlers serialize into joined and
player_list messages. -/
def rosterView (ps : List Player) : List (Nat × String × Option Color × Bool) :=
  ps.map fun p => (p.id, p.name, p.color, p.ready)
/-- The fixed color ordering of the join handler. -/
def colorOrder : List Color := [.red, .green, .yellow, .blue]
/-- The join message handler.  Note that the source has no room-capacity
check: when every color is taken, Array.find yields undefined (none here)
and the player is appended anyway with that undefined color. -/
def handleJoin (room : Room) (newId : Nat) (name : Option String) (color : Option Color) :
    Room × List Out :=
  if room.gameStarted then
    (room, [.toSender (.errorMsg "Game already started for this room")])
  else
    let takenColors := room.players.map (·.color)
    let chosenColor : Option Color :=
      match color with
      | none => colorOrder.find? fun c => !(takenColors.contains (some c))
      | some c =>
          if takenColors.contains (some c) then
            colorOrder.find? fun c2 => !(takenColors.contains (some c2))
          else some c
    let player : Player :=
      { id := newId
        name := name.getD ("Player " ++ toString (room.players.length + 1))
        color := chosenColor
        ready := false
        positions := [-1, -1, -1, -1] }
    let room' := { room with players := room.players ++ [player] }
    (room',
     [.toSender (.joined newId chosenColor (rosterView room'.players)),
      .toAll (.playerList (rosterView room'.players))])
/-- The ready message handler: sets the ready flag of the sender and
broadcasts the roster.  The source performs no gameStarted check here. -/
def handleReady (room : Room) (senderId : Nat) : Room × List Out :=
  let room' :=
    { room with
      players := room.players.map fun p =>
        if p.id == senderId then { p with ready := true } else p }
  (room', [.toAll (.playerList (rosterView room'.players))])
/-- The start message handler: requires an unstarted room, at least two
players, all ready; then marks the game started with turn index 0. -/
def handleStart (room : Room) : Room × List Out :=
  if room.gameStarted then (room, [])
  else if room.players.length < 2 then
    (room, [.toSender (.errorMsg "Need at least 2 players to start")])
  else if !(room.players.all (·.ready)) then
    (room, [.toSender (.errorMsg "All players must be ready")])
  else
    let room' :=
      { room with gameStarted := true, turnIndex := 0, currentRoll := 0, consecutiveSixes := 0 }
    match room'.players[0]? with
    | some p0 =>
        (room',
         [.toAll (.gameStartedEv p0.id (room'.players.map fun p => (p.id, p.positions)))])
    | none => (room', [])
/-- The turn broadcast emitted after a pass or a move: announces the id of
the player now at turnIndex (none is emitted when the lookup fails, where
the JavaScript handler would throw after having already mutated the
room). -/
def turnEvent (room : Room) : List Out :=
  match room.players[room.turnIndex]? with
  | some np => [.toAll (.turn np.id)]
  | none => []
/-- The roll message handler with the drawn die passed explicitly.  Only
the player at turnIndex is honoured; the six streak is updated, movable
tokens are computed and broadcast, and on a busted streak or a moveless
roll the turn passes.  The source never consults gameStarted here. -/
def handleRoll (room : Room) (senderId : Nat) (die : Nat) : Room × List Out :=
  match room.players[room.turnIndex]? with
  | none => (room, [])
  | some tp =>
    if tp.id != senderId then (room, [])
    else
      let r1 : Room :=
        { room with
          currentRoll := die
          consecutiveSixes := if die == 6 then room.consecutiveSixes + 1 else 0 }
      let moves := computeMovableTokens r1 tp die
      let mustPass := moves.length == 0
      let skipTurn := die == 6 && decide (r1.consecutiveSixes ≥ 3)
      let r2 : Room := if skipTurn then { r1 with consecutiveSixes := 0 } else r1
      let evs : List Out := [.toAll (.rollResult tp.id die moves)]
      if skipTurn || mustPass then
        let r3 := nextTurn r2
        (r3, evs ++ turnEvent r3)
      else (r2, evs)
/-- The move message handler: only the player at turnIndex is honoured and
the token index must be among computeMovableTokens for currentRoll (the
source does not check that a roll is outstanding, so currentRoll may be 0
here).  Executes the move, broadcasts the state, detects a finished
player, decides on an extra turn, clears currentRoll and announces the
next turn. -/
def handleMove (room : Room) (senderId : Nat) (tokenIndex : Nat) : Room × List Out :=
  match room.players[room.turnIndex]? with
  | none => (room, [])
  | some tp =>
    if tp.id != senderId then (room, [])
    else
      let roll := room.currentRoll
      let available := computeMovableTokens room tp roll
      if !(available.contains tokenIndex) then (room, [])
      else
        let pm := performMove room room.turnIndex tokenIndex roll
        let r1 := pm.1
        let captured := pm.2.1
        let finishedNow := pm.2.2
        let moverPositions := ((r1.players[room.turnIndex]?).map (·.positions)).getD []
        let evs1 : List Out :=
          [.toAll (.stateUpdate tp.id moverPositions tokenIndex roll captured finishedNow)]
        let evs2 :=
          if (moverPositions.filter (fun p => p == 57)).length == 4 then
            evs1 ++ [.toAll (.playerFinishedEv tp.id)]
          else evs1
        let extraTurn :=
          (roll == 6 && decide (r1.consecutiveSixes > 0)) || captured || finishedNow
        let r2 := if !extraTurn then nextTurn { r1 with consecutiveSixes := 0 } else r1
        let r3 : Room := { r2 with currentRoll := 0 }
        (r3, evs2 ++ turnEvent r3)
/-- The close handler: the departing player is filtered out, the turn
index is reset to 0 when it falls outside the remaining roster, and the
roster is broadcast. -/
def handleClose (room : Room) (playerId : Nat) : Room × List Out :=
  let remaining := room.players.filter fun p => p.id != playerId
  let newTurn := if remaining.length ≤ room.turnIndex then 0 else room.turnIndex
  ({ room with players := remaining, turnIndex := newTurn },
   [.toAll (.playerList (rosterView remaining))])
/-- One server-side operation on a room, as the message and close handlers
perform it. -/
inductive Step : Room → Room → Prop where
  | join (room : Room) (newId : Nat) (name : Option String) (color : Option Color) :
      Step room (handleJoin room newId name color).1
  | ready (room : Room) (senderId : Nat) :
      Step room (handleReady room senderId).1
  | start (room : Room) :
      Step room (handleStart room).1
  | roll (room : Room) (senderId die : Nat) :
      Step room (handleRoll room senderId die).1
  | move (room : Room) (senderId tokenIndex : Nat) :
      Step room (handleMove room senderId tokenIndex).1
  | close (room : Room) (playerId : Nat) :
      Step room (handleClose room playerId).1
/-- Rooms reachable from creation by any sequence of operations. -/
inductive Reachable : Room → Prop where
  | init (roomId : String) : Reachable (createRoom roomId)
  | step {r r' : Room} : Reachable r → Step r r' → Reachable r'
/-! ### Fixtures and derived definitions used by the theorems below -/
/-- A red player fixture. -/
def redP (ps : List Int) : Player :=
  { id := 1, name := "ada", color := some .red, ready := true, positions := ps }
/-- A green player fixture. -/
def greenP (ps : List Int) : Player :=
  { id := 2, name := "bob", color := some .green, ready := true, positions := ps }
/-- A room fixture. -/
def mkRoom (ps : List Player) (ti cr cs : Nat) (started : Bool) : Room :=
  { id := "room1", players := ps, turnIndex := ti, currentRoll := cr,
    consecutiveSixes := cs, gameStarted := started }
/-- A started two-player room whose turn belongs to the red player 1. -/
def c5Room : Room := mkRoom [redP [5, -1, -1, -1], greenP [-1, -1, -1, -1]] 0 3 0 true
/-- A started room with a not-yet-ready red player. -/
def c3Room : Room :=
  mkRoom [{ redP [-1, -1, -1, -1] with ready := false }, greenP [-1, -1, -1, -1]] 0 0 0 true
/-- A yellow player fixture. -/
def yellowP (ps : List Int) : Player :=
  { id := 3, name := "cyd", color := some .yellow, ready := true, positions := ps }
/-- A blue player fixture. -/
def blueP (ps : List Int) : Player :=
  { id := 4, name := "dan", color := some .blue, ready := true, positions := ps }
/-- An unstarted room in which all four colors are taken. -/
def c2Room : Room :=
  mkRoom [redP [-1, -1, -1, -1], greenP [-1, -1, -1, -1],
          yellowP [-1, -1, -1, -1], blueP [-1, -1, -1, -1]] 0 0 0 false
/-- Whether a message is an error reply to the sender. -/
def isErrorToSender : Out → Bool
  | .toSender (.errorMsg _) => true
  | _ => false
/-- A started room whose turn belongs to red player 1, with no outstanding
roll (currentRoll = 0) and a red token on the main track. -/
def c1Room : Room := mkRoom [redP [5, -1, -1, -1], greenP [-1, -1, -1, -1]] 0 0 0 true
/-- The inductive invariant: the turn index is below the roster length,
except that an empty room pins it to 0 (so it is below max 1 len). -/
def roomInv (room : Room) : Prop := room.turnIndex < max 1 room.players.length
/-- A started room whose red player has a finished token on 57, with no
outstanding roll (currentRoll = 0). -/
def c9Room : Room := mkRoom [redP [57, 5, -1, -1], greenP [-1, -1, -1, -1]] 0 0 0 true
/-- A started room with a red mover at relative 2 and a green token at
relative 44: both map to global index 5, which is not safe. -/
def c8Room : Room := mkRoom [redP [2, -1, -1, -1], greenP [44, -1, -1, -1]] 0 3 0 true
/-- A started room in the state a busted six streak leaves behind:
currentRoll is still 6 but consecutiveSixes has been reset to 0, and the
turn now belongs to red player 1, whose tokens are all at home. -/
def c7Room : Room := mkRoom [redP [-1, -1, -1, -1], greenP [-1, -1, -1, -1]] 0 6 0 true
/-- A started room where red has rolled a first 6 (streak 1) and all red
tokens are at home. -/
def c7wRoom : Room := mkRoom [redP [-1, -1, -1, -1], greenP [-1, -1, -1, -1]] 0 6 1 true
/-- A started two-player room in which red has already rolled two sixes. -/
def c6Room : Room := mkRoom [redP [5, -1, -1, -1], greenP [-1, -1, -1, -1]] 0 0 2 true
/-- An unstarted one-player room, as it exists right after a first join. -/
def c10Room : Room := mkRoom [redP [-1, -1, -1, -1]] 0 0 0 false
/-! ### Basic lemmas about the embedded operations -/
lemma getElem?_lt {α : Type} {l : List α} {i : Nat} {a : α} (h : l[i]? = some a) :
    i < l.length := by
  rw [List.getElem?_eq_some] at h
  exact h.1
lemma nextTurn_players (room : Room) : (nextTurn room).players = room.players := by
  unfold nextTurn; split <;> rfl
lemma nextTurn_currentRoll (room : Room) : (nextTurn room).currentRoll = room.currentRoll := by
  unfold nextTurn; split <;> rfl
lemma nextTurn_consecutiveSixes (room : Room) :
    (nextTurn room).consecutiveSixes = room.consecutiveSixes := by
  unfold nextTurn; split <;> rfl
lemma nextTurnAux_lt (ps : List Player) (fuel : Nat) :
    ∀ idx fb, idx < ps.length → fb < ps.length → nextTurnAux ps idx fuel fb < ps.length := by
  induction fuel with
  | zero => intro idx fb _ hfb; simpa [nextTurnAux] using hfb
  | succ n ih =>
    intro idx fb hidx hfb
    rw [nextTurnAux, List.getElem?_eq_getElem hidx]
    dsimp only
    split
    · exact hidx
    · exact ih _ _ (Nat.mod_lt _ (by omega)) hfb
lemma nextTurn_turnIndex_lt (room : Room) (h : room.turnIndex < room.players.length) :
    (nextTurn room).turnIndex < room.players.length := by
  unfold nextTurn
  have h0 : ¬ room.players.length = 0 := by omega
  simp only [h0, if_false]
  exact nextTurnAux_lt _ _ _ _ (Nat.mod_lt _ (by omega)) h
lemma performMove_turnIndex (room : Room) (mi ti roll : Nat) :
    (performMove room mi ti roll).1.turnIndex = room.turnIndex := by
  unfold performMove
  split
  · rfl
  · split <;> rfl
lemma performMove_consecutiveSixes (room : Room) (mi ti roll : Nat) :
    (performMove room mi ti roll).1.consecutiveSixes = room.consecutiveSixes := by
  unfold performMove
  split
  · rfl
  · split <;> rfl
lemma performMove_currentRoll (room : Room) (mi ti roll : Nat) :
    (performMove room mi ti roll).1.currentRoll = room.currentRoll := by
  unfold performMove
  split
  · rfl
  · split <;> rfl
lemma performMove_players_length (room : Room) (mi ti roll : Nat) :
    (performMove room mi ti roll).1.players.length = room.players.length := by
  unfold performMove
  split
  · rfl
  · split
    · rfl
    · simp only [captureSweep]
      split <;> simp [List.length_set, List.length_map]
lemma handleRoll_players (room : Room) (senderId die : Nat) :
    (handleRoll room senderId die).1.players = room.players := by
  unfold handleRoll
  dsimp only
  repeat' split
  all_goals simp [nextTurn_players]
/-! ### Concrete fixtures used by witnesses and counterexamples -/
/-! ### C5: roll and move requests from a player out of turn are no-ops -/
/-- C5: a roll or move request whose sender is not the player at turnIndex
leaves the room completely unchanged and produces no message at all,
neither a broadcast nor an error. -/
theorem offTurn_roll_move_noop (room : Room) (senderId die tokenIndex : Nat)
    (tp : Player) (h1 : room.players[room.turnIndex]? = some tp)
    (h2 : tp.id ≠ senderId) :
    handleRoll room senderId die = (room, []) ∧
    handleMove room senderId tokenIndex = (room, []) := by
  have hb : (tp.id != senderId) = true := by simpa using h2
  constructor
  · unfold handleRoll
    rw [h1]
    simp [hb]
  · unfold handleMove
    rw [h1]
    simp [hb]
/-- Witness for C5: in c5Room the green player 2 is not at turnIndex, so a
roll and a move from them change nothing and emit nothing. -/
theorem offTurn_roll_move_noop_w :
    handleRoll c5Room 2 4 = (c5Room, []) ∧ handleMove c5Room 2 0 = (c5Room, []) :=
  offTurn_roll_move_noop c5Room 2 4 0 (redP [5, -1, -1, -1]) (by rfl) (by decide)
/-! ### C10: the roll handler never consults the started flag -/
/-- C10: in a room that has not started, a roll request from the player at
turnIndex is accepted anyway: currentRoll becomes the drawn die, the six
streak counter is updated exactly as for a started game, and a roll_result
message is broadcast first. -/
theorem unstarted_roll_accepted (room : Room) (senderId die : Nat) (tp : Player)
    (h1 : room.players[room.turnIndex]? = some tp)
    (h2 : tp.id = senderId)
    (h0 : room.gameStarted = false) :
    (handleRoll room senderId die).1.currentRoll = die ∧
    (handleRoll room senderId die).1.consecutiveSixes =
      (if die = 6 then
        (if room.consecutiveSixes + 1 ≥ 3 then 0 else room.consecutiveSixes + 1)
       else 0) ∧
    ∃ ms t, (handleRoll room senderId die).2 =
      Out.toAll (Event.rollResult senderId die ms) :: t := by
  have hb : (tp.id != senderId) = false := by simp [h2]
  unfold handleRoll
  rw [h1]
  dsimp only
  rw [hb]
  simp only [Bool.false_eq_true, if_false]
  subst h2
  repeat' split
  all_goals
    simp_all [nextTurn_currentRoll, nextTurn_consecutiveSixes]
lemma turnEvent_cons (room : Room) (h : room.turnIndex < room.players.length) :
    ∃ nid, turnEvent room = [Out.toAll (Event.turn nid)] := by
  unfold turnEvent
  rw [List.getElem?_eq_getElem h]
  exact ⟨_, rfl⟩
/-! ### C6: a third consecutive six forces the turn to pass -/
/-- C6: when the player at turnIndex rolls a 6 while the streak counter
stands at 2 (so it reaches 3 after the increment), the streak counter is
reset to 0 and the turn index advances to the next active player exactly
as nextTurn computes it, with no condition on the legal moves of the roll;
the roll result and the new turn are broadcast. -/
theorem third_six_forces_pass (room : Room) (senderId : Nat) (tp : Player)
    (h1 : room.players[room.turnIndex]? = some tp)
    (h2 : tp.id = senderId)
    (h3 : room.consecutiveSixes = 2) :
    (handleRoll room senderId 6).1.consecutiveSixes = 0 ∧
    (handleRoll room senderId 6).1.turnIndex =
      (nextTurn { room with currentRoll := 6, consecutiveSixes := 0 }).turnIndex ∧
    ∃ ms nid, (handleRoll room senderId 6).2 =
      [Out.toAll (Event.rollResult senderId 6 ms), Out.toAll (Event.turn nid)] := by
  have hb : (tp.id != senderId) = false := by simp [h2]
  have hlt : room.turnIndex < room.players.length := getElem?_lt h1
  obtain ⟨nid, he⟩ :=
    turnEvent_cons (nextTurn { room with currentRoll := 6, consecutiveSixes := 0 })
      (by rw [nextTurn_players]
          exact nextTurn_turnIndex_lt _ hlt)
  unfold handleRoll
  rw [h1]
  dsimp only
  rw [hb]
  simp only [Bool.false_eq_true, if_false]
  subst h2
  rw [h3]
  norm_num
  rw [nextTurn_consecutiveSixes, he]
  exact ⟨rfl, nid, rfl⟩
/-! ### C3: operations on a started room -/
/-- Counterexample for C3: in the started room c3Room a ready request is
not rejected: it mutates the red player to ready and broadcasts a
player_list message. -/
theorem ready_after_start_not_rejected_cex :
    c3Room.gameStarted = true ∧
    (handleReady c3Room 1).1 ≠ c3Room ∧
    (handleReady c3Room 1).2 ≠ [] := by decide
/-- C3 (amended): once a room has started, a join request receives an
error and leaves the roster unchanged, but a ready request is not
rejected: it still sets the ready flag of the sender and still broadcasts
a player_list message. -/
theorem started_join_rejected_ready_not (room : Room) (h : room.gameStarted = true) :
    (∀ (newId : Nat) (name : Option String) (color : Option Color),
       (handleJoin room newId name color).1 = room ∧
       (handleJoin room newId name color).2 =
         [Out.toSender (Event.errorMsg "Game already started for this room")]) ∧
    (∀ (senderId i : Nat) (p : Player), room.players[i]? = some p → p.id = senderId →
       ((handleReady room senderId).1.players[i]?).map (·.ready) = some true) ∧
    (∀ senderId : Nat, (handleReady room senderId).2 ≠ []) := by
  refine ⟨?_, ?_, ?_⟩
  · intro newId name color
    unfold handleJoin
    rw [h]
    exact ⟨rfl, rfl⟩
  · intro senderId i p hp hid
    unfold handleReady
    dsimp only
    rw [List.getElem?_map, hp]
    simp [hid]
  · intro senderId
    unfold handleReady
    simp
/-- Witness for the amended C3: in c3Room a join is rejected without any
roster change, while a ready request from player 1 still flips their ready
flag. -/
theorem started_join_rejected_ready_not_w :
    (handleJoin c3Room 7 none none).1 = c3Room ∧
    ((handleReady c3Room 1).1.players[0]?).map (·.ready) = some true :=
  ⟨((started_join_rejected_ready_not c3Room (by rfl)).1 7 none none).1,
   (started_join_rejected_ready_not c3Room (by rfl)).2.1 1 0
     ({ redP [-1, -1, -1, -1] with ready := false }) (by rfl) (by rfl)⟩
/-! ### C2: joining a room whose four colors are taken -/
/-- C2 (code evaluation at the failing input): joining c2Room, whose four
colors are all taken, does not fail: no error message is produced and a
fifth player is appended to the roster with no color at all (the
JavaScript value undefined). -/
theorem join_full_room_appends_fifth :
    (handleJoin c2Room 5 none none).1.players.length = 5 ∧
    ((handleJoin c2Room 5 none none).1.players[4]?).map (·.color) = some none ∧
    (handleJoin c2Room 5 none none).2.all (fun o => !(isErrorToSender o)) = true := by
  decide
/-! ### C1: move request guarding -/
/-- Counterexample for C1: in c1Room no roll is outstanding (currentRoll
is 0, the encoding of none), yet a move request from the player at
turnIndex is not dropped: the handler broadcasts messages and mutates the
room (the turn passes to player 2). -/
theorem move_without_roll_executes_cex :
    c1Room.currentRoll = 0 ∧
    (handleMove c1Room 1 0).2 ≠ [] ∧
    (handleMove c1Room 1 0).1 ≠ c1Room := by decide
/-- C1 (amended): a move request is executed exactly when the sender is
the player at turnIndex and the requested token index is among
computeMovableTokens for the stored currentRoll value; when the sender or
the token index check fails the request is dropped silently, with an
unchanged room and no message.  The handler never checks that a roll is
outstanding: currentRoll = 0 is fed to the legality computation like any
die value, so a request with no outstanding roll can execute. -/
theorem move_guard_characterization (room : Room) (senderId tokenIndex : Nat) :
    ((∀ tp, room.players[room.turnIndex]? = some tp →
        tp.id ≠ senderId ∨ tokenIndex ∉ computeMovableTokens room tp room.currentRoll) →
      handleMove room senderId tokenIndex = (room, [])) ∧
    (∀ tp, room.players[room.turnIndex]? = some tp → tp.id = senderId →
      tokenIndex ∈ computeMovableTokens room tp room.currentRoll →
      (handleMove room senderId tokenIndex).2 ≠ []) := by
  constructor
  · intro h
    unfold handleMove
    cases hm : room.players[room.turnIndex]? with
    | none => rfl
    | some tp =>
      dsimp only
      rcases h tp hm with hid | hmem
      · have hb : (tp.id != senderId) = true := by simpa using hid
        rw [hb]
        simp
      · have hc : (computeMovableTokens room tp room.currentRoll).contains tokenIndex = false := by
          simpa [List.elem_iff] using hmem
        cases hb : (tp.id != senderId) with
        | true => simp
        | false => rw [hc]; simp
  · intro tp hm hid hmem
    have hb : (tp.id != senderId) = false := by simp [hid]
    have hc : (computeMovableTokens room tp room.currentRoll).contains tokenIndex = true := by
      simpa [List.elem_iff] using hmem
    unfold handleMove
    rw [hm]
    dsimp only
    rw [hb, hc]
    simp only [Bool.false_eq_true, if_false, Bool.not_true]
    split <;> simp
/-- Witness for the amended C1: a move request from the off-turn player 2
in c1Room is dropped silently. -/
theorem move_guard_characterization_w :
    handleMove c1Room 2 0 = (c1Room, []) :=
  (move_guard_characterization c1Room 2 0).1
    (by
      intro tp htp
      left
      have hred : c1Room.players[c1Room.turnIndex]? = some (redP [5, -1, -1, -1]) := by rfl
      rw [hred] at htp
      rw [← Option.some.inj htp]
      decide)
/-! ### C4: the turn index stays in bounds in every reachable room -/
lemma inv_handleJoin (room : Room) (newId : Nat) (name : Option String)
    (color : Option Color) (h : roomInv room) :
    roomInv (handleJoin room newId name color).1 := by
  unfold handleJoin
  split
  · exact h
  · unfold roomInv at *
    dsimp only
    rw [List.length_append]
    rcases Nat.eq_zero_or_pos room.players.length with h0 | h0
    · rw [h0] at h ⊢
      simpa using h
    · have : room.turnIndex < room.players.length := by
        rwa [Nat.max_eq_right h0] at h
      exact lt_of_lt_of_le (by omega) (Nat.le_max_right _ _)
lemma inv_handleReady (room : Room) (senderId : Nat) (h : roomInv room) :
    roomInv (handleReady room senderId).1 := by
  unfold handleReady roomInv at *
  dsimp only
  rwa [List.length_map]
lemma roomInv_of_lt {room : Room} (h : room.turnIndex < room.players.length) :
    roomInv room :=
  lt_of_lt_of_le h (Nat.le_max_right _ _)
lemma inv_handleStart (room : Room) (h : roomInv room) :
    roomInv (handleStart room).1 := by
  unfold handleStart
  split
  · exact h
  · split
    · exact h
    · split
      · exact h
      · dsimp only
        split <;>
          exact Nat.lt_of_lt_of_le Nat.one_pos (Nat.le_max_left _ _)
lemma inv_handleRoll (room : Room) (senderId die : Nat) (h : roomInv room) :
    roomInv (handleRoll room senderId die).1 := by
  unfold handleRoll
  cases hm : room.players[room.turnIndex]? with
  | none => exact h
  | some tp =>
    have hlt : room.turnIndex < room.players.length := getElem?_lt hm
    dsimp only
    cases hb : (tp.id != senderId) with
    | true => simpa using h
    | false =>
      simp only [Bool.false_eq_true, if_false]
      repeat' split
      all_goals
        apply roomInv_of_lt
        try rw [nextTurn_players]
        first
          | exact nextTurn_turnIndex_lt _ hlt
          | exact hlt
lemma inv_handleMove (room : Room) (senderId tokenIndex : Nat) (h : roomInv room) :
    roomInv (handleMove room senderId tokenIndex).1 := by
  unfold handleMove
  cases hm : room.players[room.turnIndex]? with
  | none => exact h
  | some tp =>
    have hlt : room.turnIndex < room.players.length := getElem?_lt hm
    have hpmlt :
        (performMove room room.turnIndex tokenIndex room.currentRoll).1.turnIndex <
          (performMove room room.turnIndex tokenIndex room.currentRoll).1.players.length := by
      rw [performMove_turnIndex, performMove_players_length]
      exact hlt
    dsimp only
    cases hb : (tp.id != senderId) with
    | true => simpa using h
    | false =>
      simp only [Bool.false_eq_true, if_false]
      cases hc : (computeMovableTokens room tp room.currentRoll).contains tokenIndex with
      | false => simpa using h
      | true =>
        simp only [Bool.not_true, Bool.false_eq_true, if_false]
        repeat' split
        all_goals
          apply roomInv_of_lt
          try rw [nextTurn_players]
          first
            | exact nextTurn_turnIndex_lt _ hpmlt
            | exact hpmlt
lemma inv_handleClose (room : Room) (playerId : Nat) (_h : roomInv room) :
    roomInv (handleClose room playerId).1 := by
  unfold handleClose roomInv
  dsimp only
  split
  · exact Nat.lt_of_lt_of_le Nat.one_pos (Nat.le_max_left _ _)
  · rename_i hgt
    push_neg at hgt
    exact lt_of_lt_of_le hgt (Nat.le_max_right _ _)
lemma step_preserves_inv {r r' : Room} (s : Step r r') (h : roomInv r) : roomInv r' := by
  cases s with
  | join newId name color => exact inv_handleJoin _ newId name color h
  | ready senderId => exact inv_handleReady _ senderId h
  | start => exact inv_handleStart _ h
  | roll senderId die => exact inv_handleRoll _ senderId die h
  | move senderId tokenIndex => exact inv_handleMove _ senderId tokenIndex h
  | close playerId => exact inv_handleClose _ playerId h
lemma reachable_roomInv {room : Room} (h : Reachable room) : roomInv room := by
  induction h with
  | init roomId => unfold roomInv createRoom; simp
  | step _ hs ih => exact step_preserves_inv hs ih
/-- C4: for every room reachable by any sequence of join, ready, start,
roll, move and departure operations, the turn index is a valid position in
the roster whenever the roster is non-empty. -/
theorem turnIndex_in_bounds (room : Room) (h : Reachable room)
    (hne : room.players ≠ []) :
    room.turnIndex < room.players.length := by
  have hi : roomInv room := reachable_roomInv h
  unfold roomInv at hi
  have hlen : 1 ≤ room.players.length := by
    cases hl : room.players with
    | nil => exact absurd hl hne
    | cons a l => simp [hl]
  rwa [Nat.max_eq_right hlen] at hi
/-- Witness for C4: the room obtained by creating a room and joining one
player is reachable, non-empty, and has its turn index in bounds. -/
theorem turnIndex_in_bounds_w :
    (handleJoin (createRoom "w") 1 none none).1.players ≠ [] ∧
    (handleJoin (createRoom "w") 1 none none).1.turnIndex <
      (handleJoin (createRoom "w") 1 none none).1.players.length :=
  ⟨by decide,
   turnIndex_in_bounds _
     (Reachable.step (Reachable.init "w") (Step.join (createRoom "w") 1 none none))
     (by decide)⟩
/-! ### C9: a finished token never changes position -/
lemma captureSweep_length (ps : List Player) (mid : Nat) (tg : Option Int) :
    (captureSweep ps mid tg).1.length = ps.length := by
  simp [captureSweep]
lemma tokenCapturedBy_57 (tg : Option Int) (c : Option Color) :
    tokenCapturedBy tg c 57 = false := by
  unfold tokenCapturedBy
  simp
lemma tokenMovable_57 {roll : Nat} (h : tokenMovable 57 roll = true) :
    moveDest 57 roll = 57 := by
  unfold tokenMovable at h
  simp at h
  unfold moveDest
  simp
  omega
lemma mem_computeMovableTokens {room : Room} {player : Player} {roll i : Nat}
    (h : i ∈ computeMovableTokens room player roll) :
    ∃ pos, player.positions[i]? = some pos ∧ tokenMovable pos roll = true := by
  unfold computeMovableTokens at h
  obtain ⟨hrange, hcond⟩ := List.mem_filter.mp h
  cases hi : player.positions[i]? with
  | none => rw [hi] at hcond; simp at hcond
  | some pos =>
    rw [hi] at hcond
    exact ⟨pos, rfl, hcond⟩
/-- Through performMove, any token standing on 57 (of the mover or of an
opponent) is still on 57 afterwards, provided the moved token index was
legal for the roll. -/
lemma performMove_keeps_57 (room : Room) (moverIdx tokenIndex roll : Nat)
    (tp : Player) (hp : room.players[moverIdx]? = some tp)
    (hmov : tokenIndex ∈ computeMovableTokens room tp roll) :
    ∀ (i j : Nat), ((room.players[i]?).bind (fun p => p.positions[j]?)) = some 57 →
      (((performMove room moverIdx tokenIndex roll).1.players[i]?).bind
        (fun p => p.positions[j]?)) = some 57 := by
  intro i j h57
  cases hi : room.players[i]? with
  | none => rw [hi] at h57; simp at h57
  | some p =>
    rw [hi, Option.some_bind] at h57
    obtain ⟨pos, hpt, hmv⟩ := mem_computeMovableTokens hmov
    have hmlt : moverIdx < room.players.length := getElem?_lt hp
    have htlt : tokenIndex < tp.positions.length := getElem?_lt hpt
    unfold performMove
    rw [hp]
    dsimp only
    rw [hpt]
    dsimp only
    by_cases him : i = moverIdx
    · subst him
      have hptp : tp = p := by
        rw [hp] at hi
        exact Option.some.inj hi
      subst hptp
      by_cases hj : j = tokenIndex
      · subst hj
        have hpos57 : pos = 57 := by
          rw [hpt] at h57
          exact Option.some.inj h57
        subst hpos57
        have hdest : moveDest 57 roll = 57 := tokenMovable_57 hmv
        rw [hdest]
        split
        · rw [List.getElem?_set_self (by rw [captureSweep_length]; exact hmlt)]
          rw [Option.some_bind]
          dsimp only
          rw [List.getElem?_set_self htlt]
        · rw [List.getElem?_set_self hmlt]
          rw [Option.some_bind]
          dsimp only
          rw [List.getElem?_set_self htlt]
      · have hj2 : tokenIndex ≠ j := fun hEq => hj hEq.symm
        split
        · rw [List.getElem?_set_self (by rw [captureSweep_length]; exact hmlt)]
          rw [Option.some_bind]
          dsimp only
          rw [List.getElem?_set_ne hj2]
          exact h57
        · rw [List.getElem?_set_self hmlt]
          rw [Option.some_bind]
          dsimp only
          rw [List.getElem?_set_ne hj2]
          exact h57
    · have hmi : moverIdx ≠ i := fun hEq => him hEq.symm
      have h57p : p.positions[j]? = some 57 := h57
      split
      · rw [List.getElem?_set_ne hmi]
        simp only [captureSweep]
        rw [List.getElem?_map, hi]
        rw [Option.map_some', Option.some_bind]
        cases hbo : (p.id != tp.id) with
        | false => simp only [Bool.false_eq_true, if_false]; exact h57p
        | true =>
          simp only [if_true]
          rw [List.getElem?_map, h57p, Option.map_some']
          rw [tokenCapturedBy_57]
          rfl
      · rw [List.getElem?_set_ne hmi, hi, Option.some_bind]
        exact h57p
/-- Either a move request is dropped with an unchanged room, or it
executes and the final roster is exactly the performMove roster. -/
lemma handleMove_players_cases (room : Room) (senderId tokenIndex : Nat) :
    (handleMove room senderId tokenIndex).1.players = room.players ∨
    (∃ tp, room.players[room.turnIndex]? = some tp ∧
      tokenIndex ∈ computeMovableTokens room tp room.currentRoll ∧
      (handleMove room senderId tokenIndex).1.players =
        (performMove room room.turnIndex tokenIndex room.currentRoll).1.players) := by
  unfold handleMove
  cases hm : room.players[room.turnIndex]? with
  | none => left; rfl
  | some tp =>
    dsimp only
    cases hb : (tp.id != senderId) with
    | true => left; simp
    | false =>
      cases hc : (computeMovableTokens room tp room.currentRoll).contains tokenIndex with
      | false => left; simp
      | true =>
        right
        refine ⟨tp, rfl, by simpa [List.elem_iff] using hc, ?_⟩
        simp only [Bool.not_true, Bool.false_eq_true, if_false]
        split <;> simp [nextTurn_players]
/-- C9 (amended): a token standing on 57 keeps position 57 across a roll
(which never touches positions), across a move (a 57 token passes the
legality filter only with roll 0, which leaves it on 57, and the capture
sweep never touches tokens beyond the main track), and a departure only
removes whole players, never changing the positions of the remaining
ones. -/
theorem finished_token_keeps_57 (room : Room) :
    (∀ (senderId die i j : Nat),
        ((room.players[i]?).bind (fun p => p.positions[j]?)) = some 57 →
        (((handleRoll room senderId die).1.players[i]?).bind
          (fun p => p.positions[j]?)) = some 57) ∧
    (∀ (senderId tokenIndex i j : Nat),
        ((room.players[i]?).bind (fun p => p.positions[j]?)) = some 57 →
        (((handleMove room senderId tokenIndex).1.players[i]?).bind
          (fun p => p.positions[j]?)) = some 57) ∧
    (∀ (playerId : Nat) (p : Player),
        p ∈ (handleClose room playerId).1.players → p ∈ room.players) := by
  refine ⟨?_, ?_, ?_⟩
  · intro senderId die i j h57
    rw [handleRoll_players]
    exact h57
  · intro senderId tokenIndex i j h57
    rcases handleMove_players_cases room senderId tokenIndex with heq | ⟨tp, hm, hmem, heq⟩
    · rw [heq]; exact h57
    · rw [heq]
      exact performMove_keeps_57 room room.turnIndex tokenIndex room.currentRoll tp hm hmem i j h57
  · intro playerId p hp
    unfold handleClose at hp
    dsimp only at hp
    exact (List.mem_filter.mp hp).1
/-- Counterexample for C9: the finished token 0 of the red player (on 57)
IS enumerated as movable by computeMovableTokens when the stored roll is 0
(the no-outstanding-roll state the move handler reads), and the move
handler accepts a move of that token. -/
theorem finished_token_enumerated_movable_cex :
    c9Room.players[c9Room.turnIndex]? = some (redP [57, 5, -1, -1]) ∧
    ((redP [57, 5, -1, -1]).positions[0]?) = some 57 ∧
    0 ∈ computeMovableTokens c9Room (redP [57, 5, -1, -1]) c9Room.currentRoll ∧
    (handleMove c9Room 1 0).2 ≠ [] := by decide
/-- Witness for the amended C9: moving the finished red token in c9Room
(legal only because currentRoll is 0) leaves it exactly on 57. -/
theorem finished_token_keeps_57_w :
    (((handleMove c9Room 1 0).1.players[0]?).bind (fun p => p.positions[0]?)) =
      some 57 :=
  (finished_token_keeps_57 c9Room).2.1 1 0 0 0 (by rfl)
/-! ### C8: safe squares block captures, contested cells capture all -/
/-- C8: consider a move whose destination stays on the main track and has
global index gv.  If gv is a safe square, no opponent token is captured:
the captured flag is false and every other player keeps exactly their old
positions, even when they occupy gv.  If gv is not safe, every opposing
main-track token standing on global index gv is sent home to -1. -/
theorem safe_cells_block_capture (room : Room) (moverIdx tokenIndex roll : Nat)
    (player : Player) (pos gv : Int)
    (hp : room.players[moverIdx]? = some player)
    (ht : player.positions[tokenIndex]? = some pos)
    (hdest : moveDest pos roll ≤ 51)
    (hg : computeGlobalIndex player.color (moveDest pos roll) = some gv) :
    (SAFE_INDICES.contains gv = true →
      (performMove room moverIdx tokenIndex roll).2.1 = false ∧
      ∀ (i : Nat) (oppo : Player), room.players[i]? = some oppo → oppo.id ≠ player.id →
        ((performMove room moverIdx tokenIndex roll).1.players[i]?).map (·.positions) =
          some oppo.positions) ∧
    (SAFE_INDICES.contains gv = false →
      ∀ (i j : Nat) (oppo : Player) (oppPos : Int),
        room.players[i]? = some oppo → oppo.id ≠ player.id →
        oppo.positions[j]? = some oppPos → 0 ≤ oppPos → oppPos ≤ 51 →
        computeGlobalIndex oppo.color oppPos = some gv →
        ((performMove room moverIdx tokenIndex roll).1.players[i]?).bind
          (fun q => q.positions[j]?) = some (-1)) := by
  unfold performMove
  rw [hp]
  dsimp only
  rw [ht]
  dsimp only
  rw [if_pos hdest, hg]
  constructor
  · intro hsafe
    have hcap : ∀ (c : Option Color) (q : Int), tokenCapturedBy (some gv) c q = false := by
      intro c q
      unfold tokenCapturedBy safeGlobal
      dsimp only
      rw [hsafe]
      simp
    constructor
    · simp only [captureSweep]
      rw [List.any_eq_false]
      intro opp _
      rw [Bool.not_eq_true, Bool.and_eq_false_iff]
      right
      rw [List.any_eq_false]
      intro q _
      rw [Bool.not_eq_true]
      exact hcap opp.color q
    · intro i oppo hio hne
      have hne_idx : moverIdx ≠ i := by
        intro hEq
        rw [← hEq, hp] at hio
        exact hne (by rw [Option.some.inj hio])
      simp only [captureSweep]
      rw [List.getElem?_set_ne hne_idx, List.getElem?_map, hio]
      cases hbo : (oppo.id != player.id) <;> simp [hbo, hcap]
  · intro hnosafe i j oppo oppPos hio hne hjo h0 h51 hog
    have hcond : tokenCapturedBy (some gv) oppo.color oppPos = true := by
      unfold tokenCapturedBy
      rw [hog]
      unfold safeGlobal optEq
      dsimp only
      rw [hnosafe]
      simp [h0, h51]
    have hne_idx : moverIdx ≠ i := by
      intro hEq
      rw [← hEq, hp] at hio
      exact hne (by rw [Option.some.inj hio])
    have hbo : (oppo.id != player.id) = true := by simpa using hne
    simp only [captureSweep]
    rw [List.getElem?_set_ne hne_idx, List.getElem?_map, hio]
    simp [hbo, hne, hjo, hcond]
/-- Witness for C8: red moves from 2 by 3 to relative 5 (global 5, not
safe); the green token sitting on global 5 is sent home. -/
theorem safe_cells_block_capture_w :
    ((performMove c8Room 0 0 3).1.players[1]?).bind (fun q => q.positions[0]?) =
      some (-1) :=
  (safe_cells_block_capture c8Room 0 0 3 (redP [2, -1, -1, -1]) 2 5
      (by rfl) (by rfl) (by decide) (by rfl)).2
    (by decide) 1 0 (greenP [44, -1, -1, -1]) 44 (by rfl) (by decide) (by rfl)
    (by decide) (by decide) (by rfl)
/-! ### C7: extra-turn conditions after a move -/
/-- Counterexample for C7: in c7Room the executed move uses roll 6 (red
enters a token from home), yet the turn does not stay with red: it passes
to player 2, because the handler grants the six extra turn only when
consecutiveSixes is positive. -/
theorem six_move_turn_passes_cex :
    c7Room.currentRoll = 6 ∧ c7Room.turnIndex = 0 ∧
    (handleMove c7Room 1 0).1.turnIndex = 1 := by decide
/-- C7 (amended): after an executed move the turn passes unless the roll
was a 6 with a positive consecutiveSixes counter, or the move captured, or
the moved token finished; any of those leaves turnIndex unchanged.  In
every case currentRoll is cleared to 0 and the turn notification is the
last message emitted. -/
theorem move_extra_turn_characterization (room : Room) (senderId tokenIndex : Nat)
    (tp : Player)
    (h1 : room.players[room.turnIndex]? = some tp)
    (h2 : tp.id = senderId)
    (h3 : tokenIndex ∈ computeMovableTokens room tp room.currentRoll) :
    (handleMove room senderId tokenIndex).1.currentRoll = 0 ∧
    (((room.currentRoll == 6 &&
        decide (0 < (performMove room room.turnIndex tokenIndex room.currentRoll).1.consecutiveSixes)) ||
       (performMove room room.turnIndex tokenIndex room.currentRoll).2.1 ||
       (performMove room room.turnIndex tokenIndex room.currentRoll).2.2) = true →
      (handleMove room senderId tokenIndex).1.turnIndex = room.turnIndex) ∧
    (((room.currentRoll == 6 &&
        decide (0 < (performMove room room.turnIndex tokenIndex room.currentRoll).1.consecutiveSixes)) ||
       (performMove room room.turnIndex tokenIndex room.currentRoll).2.1 ||
       (performMove room room.turnIndex tokenIndex room.currentRoll).2.2) = false →
      (handleMove room senderId tokenIndex).1.turnIndex =
        (nextTurn { (performMove room room.turnIndex tokenIndex room.currentRoll).1 with
            consecutiveSixes := 0 }).turnIndex ∧
      (handleMove room senderId tokenIndex).1.consecutiveSixes = 0) ∧
    (∃ nid rest, (handleMove room senderId tokenIndex).2 =
        rest ++ [Out.toAll (Event.turn nid)]) := by
  have hb : (tp.id != senderId) = false := by simp [h2]
  have hc : (computeMovableTokens room tp room.currentRoll).contains tokenIndex = true := by
    simpa [List.elem_iff] using h3
  have hlt : room.turnIndex < room.players.length := getElem?_lt h1
  have hpmlt :
      (performMove room room.turnIndex tokenIndex room.currentRoll).1.turnIndex <
        (performMove room room.turnIndex tokenIndex room.currentRoll).1.players.length := by
    rw [performMove_turnIndex, performMove_players_length]
    exact hlt
  unfold handleMove
  rw [h1]
  dsimp only
  rw [hb, hc]
  simp only [Bool.false_eq_true, if_false, Bool.not_true, Bool.not_false, if_true]
  set pm := performMove room room.turnIndex tokenIndex room.currentRoll with hpm
  cases hex : (room.currentRoll == 6 && decide (0 < pm.1.consecutiveSixes)) || pm.2.1 || pm.2.2 with
  | true =>
    simp only [hex, Bool.not_true, Bool.false_eq_true, if_false]
    refine ⟨trivial, ?_, ?_, ?_⟩
    · intro _
      exact performMove_turnIndex room room.turnIndex tokenIndex room.currentRoll
    · intro hfalse
      simp at hfalse
    · obtain ⟨nid, he⟩ := turnEvent_cons { pm.1 with currentRoll := 0 } hpmlt
      rw [he]
      exact ⟨nid, _, rfl⟩
  | false =>
    simp only [hex, Bool.not_false, if_true]
    have hlt2 :
        (nextTurn { pm.1 with consecutiveSixes := 0 }).turnIndex <
          (nextTurn { pm.1 with consecutiveSixes := 0 }).players.length := by
      rw [nextTurn_players]
      exact nextTurn_turnIndex_lt _ hpmlt
    refine ⟨trivial, ?_, ?_, ?_⟩
    · intro htrue
      simp at htrue
    · intro _
      exact ⟨trivial, by rw [nextTurn_consecutiveSixes]⟩
    · obtain ⟨nid, he⟩ :=
        turnEvent_cons { nextTurn { pm.1 with consecutiveSixes := 0 } with currentRoll := 0 } hlt2
      rw [he]
      exact ⟨nid, _, rfl⟩
/-- Witness for the amended C7: red enters a token with a live six streak,
so the turn stays with red and currentRoll is cleared. -/
theorem move_extra_turn_characterization_w :
    (handleMove c7wRoom 1 0).1.currentRoll = 0 ∧
    (handleMove c7wRoom 1 0).1.turnIndex = c7wRoom.turnIndex :=
  ⟨(move_extra_turn_characterization c7wRoom 1 0 (redP [-1, -1, -1, -1])
      (by rfl) (by rfl) (by decide)).1,
   (move_extra_turn_characterization c7wRoom 1 0 (redP [-1, -1, -1, -1])
      (by rfl) (by rfl) (by decide)).2.1 (by decide)⟩
/-- Witness for C6: red rolls a third six in c6Room; the streak resets and
the turn passes to the next active player. -/
theorem third_six_forces_pass_w :
    (handleRoll c6Room 1 6).1.consecutiveSixes = 0 ∧
    (handleRoll c6Room 1 6).1.turnIndex =
      (nextTurn { c6Room with currentRoll := 6, consecutiveSixes := 0 }).turnIndex ∧
    ∃ ms nid, (handleRoll c6Room 1 6).2 =
      [Out.toAll (Event.rollResult 1 6 ms), Out.toAll (Event.turn nid)] :=
  third_six_forces_pass c6Room 1 (redP [5, -1, -1, -1]) (by rfl) (by rfl) (by rfl)
/-- Witness for C10: rolling a 4 in the unstarted c10Room is accepted. -/
theorem unstarted_roll_accepted_w :
    (handleRoll c10Room 1 4).1.currentRoll = 4 ∧
    (handleRoll c10Room 1 4).1.consecutiveSixes =
      (if (4 : Nat) = 6 then
        (if c10Room.consecutiveSixes + 1 ≥ 3 then 0 else c10Room.consecutiveSixes + 1)
       else 0) ∧
    ∃ ms t, (handleRoll c10Room 1 4).2 =
      Out.toAll (Event.rollResult 1 4 ms) :: t :=
  unstarted_roll_accepted c10Room 1 4 (redP [-1, -1, -1, -1]) (by rfl) (by rfl) (by rfl)
end Ludo
